import Mathlib

/-!
Shallow embedding of the tabular schema-inference and time-series
normalization core of the financial-forecaster repository:

* `src/utils/excel_parser.py` — `detect_date_column`, `detect_numeric_columns`
* `src/forecasting/prophet_model.py` — `prepare_data`

A spreadsheet cell (as produced by the pandas Excel reader) is modelled as a
tagged value: an already-typed datetime, an already-typed number, a text
string, or a missing marker (NaN).  Timestamps and numbers are modelled as
integers: the claims under verification concern ordering, counting, schema
and error behaviour, never float arithmetic.  Text-to-datetime coercion
(`pd.to_datetime(..., errors="coerce")`) is modelled on the unambiguous
ISO `YYYY-MM-DD` format, mapped monotonically to an integer timeline;
text-to-numeric coercion (`pd.to_numeric`) is modelled on optionally signed
decimal integer literals.
-/

/-- A single spreadsheet cell: a typed datetime value, a typed numeric value,
a text string, or a missing marker (NaN / empty cell). -/
inductive Cell where
  | date (t : Int)
  | num (x : Int)
  | text (s : String)
  | missing
deriving DecidableEq

/-- A pandas `DataFrame` restricted to what the verified code inspects: an
ordered sequence of named columns, each an ordered list of cells.  (The
source's `RawTable` invariant: equal column lengths, unique names; carried
as hypotheses where a theorem needs them.) -/
abbrev Table := List (String × List Cell)

namespace Table

/-- The ordered list of column names (`df.columns`). -/
def columns (df : Table) : List String := df.map Prod.fst

/-- Column access `df[c]`: the first column with the given name, the empty
column if absent (the verified code only accesses columns it has checked). -/
def getCol (df : Table) (c : String) : List Cell :=
  match df.find? (fun p => p.1 == c) with
  | some p => p.2
  | none => []

end Table

/-- Accumulator for decimal digit strings. -/
def digitsToNatAux : List Char → Nat → Option Nat
  | [], acc => some acc
  | c :: t, acc => if c.isDigit then digitsToNatAux t (10 * acc + (c.toNat - 48)) else none

/-- Parse a nonempty all-digit character list as a natural number. -/
def digitsToNat : List Char → Option Nat
  | [] => none
  | c :: t => digitsToNatAux (c :: t) 0

/-- Split a character list at every dash. -/
def splitDashes : List Char → List (List Char)
  | [] => [[]]
  | c :: t =>
    let r := splitDashes t
    if c = '-' then [] :: r
    else
      match r with
      | h :: t2 => (c :: h) :: t2
      | [] => [[c]]

/-- Model of `pd.to_datetime` on one text cell, restricted to the ISO
`YYYY-MM-DD` format; a valid date maps to `10000*y + 100*m + d`, which is
order-isomorphic to calendar order on valid dates.  Any other text fails
(becomes NaT under `errors="coerce"`). -/
def parseDate (s : String) : Option Int :=
  match splitDashes s.data with
  | [ys, ms, ds] =>
    match digitsToNat ys, digitsToNat ms, digitsToNat ds with
    | some y, some m, some d =>
      if ys.length = 4 ∧ ms.length = 2 ∧ ds.length = 2 ∧
          1 ≤ m ∧ m ≤ 12 ∧ 1 ≤ d ∧ d ≤ 31 then
        some (10000 * (y : Int) + 100 * (m : Int) + (d : Int))
      else none
    | _, _, _ => none
  | _ => none

/-- Model of numeric text parsing (`pd.to_numeric` on one text cell):
an optionally signed decimal integer literal. -/
def parseIntText (s : String) : Option Int :=
  match s.data with
  | [] => none
  | c :: t =>
    if c = '-' then (digitsToNat t).map (fun n => -(n : Int))
    else (digitsToNat (c :: t)).map (fun n => (n : Int))

/-- Per-cell model of `pd.to_datetime(col, errors="coerce")`: typed datetimes
pass through, numbers are read as epoch offsets (pandas accepts them), text is
parsed, missing stays missing (NaT). -/
def cellToDatetime : Cell → Option Int
  | .date t => some t
  | .num x => some x
  | .text s => parseDate s
  | .missing => none

/-- Per-cell model of `pd.to_numeric(col, errors="coerce")`: numbers pass
through, numeric text parses, datetimes and missing cells yield missing. -/
def cellToNumeric : Cell → Option Int
  | .num x => some x
  | .text s => parseIntText s
  | .date _ => none
  | .missing => none

/-- Whether the raising form `pd.to_numeric(col)` succeeds at this cell:
numbers succeed, missing cells pass through as NaN without error, numeric
text succeeds, other text and datetimes raise. -/
def cellNumericOk : Cell → Bool
  | .num _ => true
  | .missing => true
  | .text s => (parseIntText s).isSome
  | .date _ => false

/-- Is this cell a typed number? -/
def Cell.isNum : Cell → Bool
  | .num _ => true
  | _ => false

/-- Is this cell the missing marker? -/
def Cell.isMissingCell : Cell → Bool
  | .missing => true
  | _ => false

/-- Is this cell a typed datetime? -/
def Cell.isDateCell : Cell → Bool
  | .date _ => true
  | _ => false

/-- The pandas dtypes the verified code distinguishes. -/
inductive Dtype where
  | intD
  | floatD
  | datetimeD
  | objectD
deriving DecidableEq

/-- Dtype inference as pandas performs it when a sheet is read: an
all-number column is integer/float typed, numbers with gaps become float
(NaN is a float), an all-datetime column (gaps allowed, NaT) is datetime
typed, anything containing text — and the empty column — is `object`.
(Cells come from `pd.read_excel`, where an empty cell is a float NaN, so an
all-missing nonempty column is float typed.) -/
def inferDtype (col : List Cell) : Dtype :=
  if col.isEmpty then .objectD
  else if col.all Cell.isNum then .intD
  else if col.all (fun c => c.isNum || c.isMissingCell) then .floatD
  else if col.all (fun c => c.isDateCell || c.isMissingCell) then .datetimeD
  else .objectD

/-- Model of `pd.api.types.is_object_dtype(df[col])`. -/
def isObjectDtype (col : List Cell) : Bool := inferDtype col == .objectD

/-- Model of `pd.api.types.is_datetime64_any_dtype(df[col])`. -/
def isDatetimeDtype (col : List Cell) : Bool := inferDtype col == .datetimeD

/-- Model of `pd.api.types.is_numeric_dtype(df[col])`. -/
def isNumericDtype (col : List Cell) : Bool :=
  !col.isEmpty && col.all (fun c => c.isNum || c.isMissingCell)

/-- The fraction `pd.to_datetime(df[col], errors="coerce").notna().mean()`
of cells that parse as datetimes, as an exact rational. -/
def validFrac (col : List Cell) : ℚ :=
  ((col.countP (fun c => (cellToDatetime c).isSome) : Int) : ℚ) / ((col.length : Int) : ℚ)

/-- `detect_date_column` from `src/utils/excel_parser.py` (lines 51-77):
walk the columns in table order; skip a column whose dtype is neither
object nor datetime; otherwise coerce it to datetimes and return the first
column whose valid fraction is at least the threshold; `None` if no column
qualifies.  (On an empty column pandas' `mean()` is NaN and `NaN >= t` is
false, modelled by the explicit nonemptiness conjunct.) -/
def detect_date_column (df : Table) (threshold : ℚ) : Option String :=
  match df with
  | [] => none
  | (name, col) :: rest =>
    if !isObjectDtype col && !isDatetimeDtype col then
      detect_date_column rest threshold
    else if col.length ≠ 0 ∧ validFrac col ≥ threshold then
      some name
    else
      detect_date_column rest threshold

/-- The test the `detect_date_column` loop applies to one column: not
skipped for its dtype, and nonempty with valid fraction at least the
threshold. -/
def dateHit (threshold : ℚ) (col : List Cell) : Bool :=
  !(!isObjectDtype col && !isDatetimeDtype col) &&
    decide (col.length ≠ 0 ∧ validFrac col ≥ threshold)

/-- `detect_numeric_columns` from `src/utils/excel_parser.py` (lines 79-111):
walk the columns in table order, skip excluded names, include a column when
its dtype is already numeric or when the raising `pd.to_numeric` succeeds on
every cell; a column where it raises is silently skipped. -/
def detect_numeric_columns (df : Table) (exclude_columns : List String) : List String :=
  match df with
  | [] => []
  | (name, col) :: rest =>
    if name ∈ exclude_columns then
      detect_numeric_columns rest exclude_columns
    else if isNumericDtype col then
      name :: detect_numeric_columns rest exclude_columns
    else if col.all cellNumericOk then
      name :: detect_numeric_columns rest exclude_columns
    else
      detect_numeric_columns rest exclude_columns

/-- The error message of `prepare_data` when a requested column is absent
(`src/forecasting/prophet_model.py` line 21): it reports the table's
available column names, taken from `df.columns.tolist()`. -/
def availableColumnsMessage (df : Table) : String :=
  "Required columns not found. Available columns: [" ++
    String.intercalate ", " (Table.columns df) ++ "]"

/-- The ordering `prepare_data` sorts by: comparison of the coerced
timestamps (first components). -/
def tsLE (a b : Int × Int) : Prop := a.1 ≤ b.1

instance : DecidableRel tsLE := fun a b => inferInstanceAs (Decidable (a.1 ≤ b.1))

instance : IsTrans (Int × Int) tsLE := ⟨fun _ _ _ h h2 => le_trans h h2⟩

instance : IsTotal (Int × Int) tsLE := ⟨fun a b => le_total a.1 b.1⟩

/-- The surviving, sorted rows of `prepare_data`
(`src/forecasting/prophet_model.py` lines 24-32): coerce the date column
with `pd.to_datetime(..., errors="coerce")` and the value column with
`pd.to_numeric(..., errors="coerce")`, drop every row in which either
coercion failed (`dropna(subset=[date_col, value_col])`), and sort the
remaining rows ascending by the coerced date (`sort_values(by=date_col)`).
This is the two-column restriction of the pipeline; `prepare_data_ok`
proves it agrees with the full pipeline's output when the selected columns
are distinct.  The sort is modelled by an insertion sort on the timestamp
key; the source's pandas default sort kind is `quicksort`, which pandas
documents as not stable, so the relative order of rows with equal
timestamps is an implementation detail of numpy's introsort that this
model does not capture. -/
def prepareRows (df : Table) (date_col value_col : String) : List (Int × Int) :=
  let ds := (Table.getCol df date_col).map cellToDatetime
  let ys := (Table.getCol df value_col).map cellToNumeric
  let kept := (ds.zip ys).filterMap (fun p =>
    match p.1, p.2 with
    | some d, some y => some (d, y)
    | _, _ => none)
  kept.insertionSort tsLE

/-- The shape of the projected output in the regular case: the coerced
date column under the label `ds` and the coerced value column under the
label `y` (`prepare_data_ok` proves the pipeline produces exactly this
frame when the selected columns are distinct, names are unique, and no
unselected column is already labelled `ds` or `y`). -/
def mkCleanFrame (rows : List (Int × Int)) : Table :=
  [("ds", rows.map (fun r => Cell.date r.1)),
   ("y", rows.map (fun r => Cell.num r.2))]

/-- One assignment step of
`df[date_col] = pd.to_datetime(df[date_col], errors="coerce")` on a single
cell: success stores a typed datetime, failure stores NaT. -/
def coerceDateCell (c : Cell) : Cell :=
  match cellToDatetime c with
  | some t => Cell.date t
  | none => Cell.missing

/-- One assignment step of
`df[value_col] = pd.to_numeric(df[value_col], errors="coerce")` on a single
cell: success stores a typed number, failure stores NaN. -/
def coerceNumCell (c : Cell) : Cell :=
  match cellToNumeric c with
  | some x => Cell.num x
  | none => Cell.missing

/-- Effect of the two coercion assignments of `prepare_data` (lines 25-26)
on one column: the date coercion hits the columns labelled `date_col`,
then the numeric coercion hits the columns labelled `value_col`.  When
`date_col = value_col` the same column is coerced twice, sequentially,
exactly as the two source statements execute. -/
def coerceColCells (date_col value_col nm : String) (col : List Cell) : List Cell :=
  let col1 := if nm = date_col then col.map coerceDateCell else col
  if nm = value_col then col1.map coerceNumCell else col1

/-- The frame after the two coercion assignments. -/
def coerceCols (df : Table) (date_col value_col : String) : Table :=
  df.map (fun p => (p.1, coerceColCells date_col value_col p.1 p.2))

/-- Number of rows of the frame: the length of its first column (all
columns have equal length under the RawTable invariant). -/
def Table.nRows (df : Table) : Nat :=
  match df with
  | [] => 0
  | p :: _ => p.2.length

/-- Cell of a column at a row index (missing when out of range). -/
def cellAt (col : List Cell) (i : Nat) : Cell := col.getD i Cell.missing

/-- The sort key a coerced cell contributes to `sort_values`. -/
def cellKey : Cell → Int
  | .date t => t
  | .num x => x
  | .text _ => 0
  | .missing => 0

/-- Row indices surviving `dropna(subset=[date_col, value_col])`
(line 29): keep a row when neither subset cell is missing. -/
def dropKeep (df2 : Table) (date_col value_col : String) (n : Nat) : List Nat :=
  (List.range n).filter (fun i =>
    !(cellAt (Table.getCol df2 date_col) i).isMissingCell &&
      !(cellAt (Table.getCol df2 value_col) i).isMissingCell)

/-- Surviving row indices reordered by `sort_values(by=date_col)`
(line 32), modelled by a stable insertion sort on the coerced date key (the
source's default sort kind `quicksort` leaves the order of tied keys
unspecified; see `prepareRows`). -/
def sortIdx (df2 : Table) (date_col : String) (idxs : List Nat) : List Nat :=
  idxs.insertionSort (fun i j =>
    cellKey (cellAt (Table.getCol df2 date_col) i) ≤
      cellKey (cellAt (Table.getCol df2 date_col) j))

/-- Restrict a column to the given row indices, in order. -/
def takeRows (idxs : List Nat) (col : List Cell) : List Cell :=
  idxs.map (fun i => cellAt col i)

/-- The label map of `df.rename(columns={date_col: "ds", value_col: "y"})`
(lines 35-38).  When `date_col = value_col` the Python dict literal
collapses to the single entry mapping that column to `y`, so no label is
renamed to `ds`. -/
def renameLabel (date_col value_col nm : String) : String :=
  if date_col = value_col then (if nm = value_col then "y" else nm)
  else if nm = date_col then "ds"
  else if nm = value_col then "y"
  else nm

/-- Label-list selection `df[["ds", "y"]]` (line 40): for each requested
label, every column bearing it, in request order then table order; raises
`KeyError` when a requested label matches no column (pandas reports the
missing labels as not in index). -/
def selectCols (df : Table) (labels : List String) : Except String Table :=
  match labels with
  | [] => Except.ok []
  | l :: rest =>
    let hits := df.filter (fun p => p.1 == l)
    if hits.isEmpty then Except.error ("KeyError: " ++ l ++ " not in index")
    else (selectCols df rest).map (fun t => hits ++ t)

/-- `prepare_data` from `src/forecasting/prophet_model.py` (lines 7-40):
raise `ValueError` with the available-columns message when either requested
column is absent (the source raises; modelled as `Except.error`); otherwise
coerce the requested columns in place, drop rows with a missing coerced
cell, sort rows by the coerced date key, rename labels through the
(possibly collapsed) dict, and select the labels `ds` and `y`.  The source
copies the input frame (`df = df.copy()`) before mutating, so the function
is a pure map from its arguments and the caller's table is untouched.  Two
edge paths of the source are kept: with `date_col = value_col` the rename
dict collapses and the final selection raises `KeyError` unless a stray
`ds`-labelled column exists, and a pre-existing unselected `ds`/`y` column
survives the label-based selection as a duplicate label with uncoerced
cells. -/
def prepare_data (df : Table) (date_col value_col : String) : Except String Table :=
  if date_col ∉ Table.columns df ∨ value_col ∉ Table.columns df then
    Except.error (availableColumnsMessage df)
  else
    let df2 := coerceCols df date_col value_col
    let idxs := sortIdx df2 date_col (dropKeep df2 date_col value_col (Table.nRows df))
    let df3 := df2.map (fun p => (p.1, takeRows idxs p.2))
    let df4 := df3.map (fun p => (renameLabel date_col value_col p.1, p.2))
    selectCols df4 ["ds", "y"]

/-- Does `sub` occur as a contiguous substring of `s`?  Used to formalise
"the error message names the missing column". -/
def hasSubList (sub : List Char) : List Char → Bool
  | [] => sub.isEmpty
  | c :: t => sub.isPrefixOf (c :: t) || hasSubList sub t

/-- Does the string `name` occur inside the string `msg`? -/
def mentionsName (msg name : String) : Bool := hasSubList name.data msg.data

/-- Concrete two-row table used to instantiate the general theorems. -/
def exTable : Table :=
  [("Date", [Cell.text "2020-01-01", Cell.text "2020-01-02"]),
   ("Sales", [Cell.num 5, Cell.num 3])]

/-- A column in which exactly 4 of 5 cells parse as dates (an 80% valid
fraction). -/
def boundaryCol : List Cell :=
  [Cell.text "2020-01-01", Cell.text "2020-01-02", Cell.text "2020-01-03",
   Cell.text "2020-01-04", Cell.text "nope"]

/-- One-column table around the 80% boundary column. -/
def boundaryTbl : Table := [("A", boundaryCol)]

/-- One-column table of typed datetimes, fully parseable. -/
def wTbl : Table := [("W", [Cell.date 0])]

/-- A column of 99 typed numbers and a single non-convertible text cell. -/
def badCol99 : List Cell := List.replicate 99 (Cell.num 1) ++ [Cell.text "oops"]

/-- Table whose single row fails both coercions. -/
def allBadTbl : Table :=
  [("Date", [Cell.text "not a date"]), ("Sales", [Cell.text "abc"])]

/-- Table with a stray pre-existing `y` column holding a missing cell. -/
def strayTbl : Table :=
  [("Date", [Cell.text "2020-01-01"]), ("Sales", [Cell.num 7]), ("y", [Cell.missing])]

/-- One-column table whose single cell parses neither as date nor number. -/
def oneColBadTbl : Table := [("X", [Cell.text "hello"])]

/-- Length of a `filterMap` as a count of successes. -/
lemma length_filterMap_eq_countP {α β : Type} (f : α → Option β) (l : List α) :
    (l.filterMap f).length = l.countP (fun x => (f x).isSome) := by
  induction l with
  | nil => rfl
  | cons a t ih =>
    cases hf : f a <;>
      simp [List.filterMap_cons, hf, List.countP_cons, ih]

/-- Under the equal-column-length invariant, a present column has the
common length. -/
lemma getCol_length (df : Table) (c : String) (n : Nat)
    (hn : ∀ p ∈ df, p.2.length = n) (hc : c ∈ Table.columns df) :
    (Table.getCol df c).length = n := by
  unfold Table.getCol
  cases hfind : df.find? (fun p => p.1 == c) with
  | none =>
    exfalso
    obtain ⟨p, hp, hpc⟩ := List.mem_map.mp hc
    have := List.find?_eq_none.mp hfind p hp
    simp [hpc] at this
  | some q =>
    exact hn q (List.mem_of_find?_eq_some hfind)

/-- The clean frame exposes its first column under the name `ds`. -/
lemma getCol_mkCleanFrame_ds (rows : List (Int × Int)) :
    Table.getCol (mkCleanFrame rows) "ds" = rows.map (fun r => Cell.date r.1) := rfl

/-- The clean frame exposes its second column under the name `y`. -/
lemma getCol_mkCleanFrame_y (rows : List (Int × Int)) :
    Table.getCol (mkCleanFrame rows) "y" = rows.map (fun r => Cell.num r.2) := rfl

/-- Row filter of the `dropna` step, on one pair of coerced cells. -/
def keepRule (p : Option Int × Option Int) : Option (Int × Int) :=
  match p.1, p.2 with
  | some d, some y => some (d, y)
  | _, _ => none

/-- `prepareRows` rephrased over the zip of the two raw columns. -/
lemma prepareRows_eq (df : Table) (d v : String) :
    prepareRows df d v =
      (((Table.getCol df d).zip (Table.getCol df v)).filterMap
        (fun p => keepRule (cellToDatetime p.1, cellToNumeric p.2))).insertionSort tsLE := by
  unfold prepareRows
  simp only []
  rw [List.zip_map, List.filterMap_map]
  rfl

/-- A kept pair is exactly a pair of successful coercions. -/
lemma keepRule_isSome (a b : Option Int) :
    (keepRule (a, b)).isSome = (a.isSome && b.isSome) := by
  cases a <;> cases b <;> rfl

/-- The surviving-row count of `prepareRows`. -/
lemma prepareRows_length (df : Table) (d v : String) :
    (prepareRows df d v).length =
      ((Table.getCol df d).zip (Table.getCol df v)).countP
        (fun p => (cellToDatetime p.1).isSome && (cellToNumeric p.2).isSome) := by
  rw [prepareRows_eq, List.length_insertionSort, length_filterMap_eq_countP]
  exact List.countP_congr (fun p _ => by rw [keepRule_isSome])

/-- `prepareRows` output is sorted by timestamp. -/
lemma prepareRows_sorted (df : Table) (d v : String) :
    List.Sorted tsLE (prepareRows df d v) := by
  unfold prepareRows
  exact List.sorted_insertionSort tsLE _

/-- `detect_date_column` is the first-match search for `dateHit`. -/
lemma detect_date_column_eq_find (df : Table) (t : ℚ) :
    detect_date_column df t = (df.find? (fun p => dateHit t p.2)).map Prod.fst := by
  induction df with
  | nil => rfl
  | cons hd tl ih =>
    obtain ⟨name, col⟩ := hd
    rw [detect_date_column]
    by_cases h1 : (!isObjectDtype col && !isDatetimeDtype col) = true
    · rw [if_pos h1, List.find?_cons_of_neg _ (by simp [dateHit, h1])]
      exact ih
    · by_cases h2 : col.length ≠ 0 ∧ validFrac col ≥ t
      · have hdh : dateHit t col = true := by
          unfold dateHit
          rw [decide_eq_true h2, Bool.and_true, Bool.not_eq_true' .. |>.mpr (by simpa using h1)]
        rw [if_neg h1, if_pos h2]
        rw [show List.find? (fun p => dateHit t p.2) ((name, col) :: tl)
              = some (name, col) from List.find?_cons_of_pos _ hdh]
        rfl
      · have hdh : dateHit t col = false := by
          unfold dateHit
          rw [decide_eq_false h2, Bool.and_false]
        rw [if_neg h1, if_neg h2]
        rw [show List.find? (fun p => dateHit t p.2) ((name, col) :: tl)
              = List.find? (fun p => dateHit t p.2) tl from
            List.find?_cons_of_neg _ (by simp [hdh])]
        exact ih

/-- A numeric-dtyped column converts at every cell. -/
lemma all_ok_of_numericDtype {col : List Cell} (h : isNumericDtype col = true) :
    ∀ c ∈ col, cellNumericOk c = true := by
  intro c hc
  unfold isNumericDtype at h
  rw [Bool.and_eq_true, List.all_eq_true] at h
  have h2 := h.2 c hc
  cases c <;> simp_all [Cell.isNum, Cell.isMissingCell, cellNumericOk]

/-- Every name returned by `detect_numeric_columns` is a non-excluded
column of the table all of whose cells convert. -/
lemma detect_numeric_mem_sound (df : Table) (exclude : List String) :
    ∀ name ∈ detect_numeric_columns df exclude,
      name ∉ exclude ∧ ∃ col, (name, col) ∈ df ∧ ∀ c ∈ col, cellNumericOk c = true := by
  induction df with
  | nil =>
    intro name h
    simp [detect_numeric_columns] at h
  | cons hd tl ih =>
    obtain ⟨nm, col⟩ := hd
    intro name hmem
    rw [detect_numeric_columns] at hmem
    by_cases hex : nm ∈ exclude
    · rw [if_pos hex] at hmem
      obtain ⟨hne, col', hc', hall⟩ := ih name hmem
      exact ⟨hne, col', List.mem_cons_of_mem _ hc', hall⟩
    · rw [if_neg hex] at hmem
      by_cases h1 : isNumericDtype col = true
      · rw [if_pos h1] at hmem
        rcases List.mem_cons.mp hmem with heq | htl
        · subst heq
          exact ⟨hex, col, List.mem_cons_self _ _, all_ok_of_numericDtype h1⟩
        · obtain ⟨hne, col', hc', hall⟩ := ih name htl
          exact ⟨hne, col', List.mem_cons_of_mem _ hc', hall⟩
      · rw [if_neg h1] at hmem
        by_cases h2 : col.all cellNumericOk = true
        · rw [if_pos h2] at hmem
          rcases List.mem_cons.mp hmem with heq | htl
          · subst heq
            exact ⟨hex, col, List.mem_cons_self _ _, List.all_eq_true.mp h2⟩
          · obtain ⟨hne, col', hc', hall⟩ := ih name htl
            exact ⟨hne, col', List.mem_cons_of_mem _ hc', hall⟩
        · rw [if_neg h2] at hmem
          obtain ⟨hne, col', hc', hall⟩ := ih name hmem
          exact ⟨hne, col', List.mem_cons_of_mem _ hc', hall⟩

/-- Under unique column names, a column holding a single non-convertible
cell is never returned by `detect_numeric_columns`. -/
lemma detect_numeric_bad_excluded (df : Table) (exclude : List String) :
    (Table.columns df).Nodup →
    ∀ name col c, (name, col) ∈ df → c ∈ col → cellNumericOk c = false →
      name ∉ detect_numeric_columns df exclude := by
  induction df with
  | nil =>
    intro _ name col c h
    cases h
  | cons hd tl ih =>
    obtain ⟨nm, colh⟩ := hd
    intro hnd name col c hmem hc hbad hincl
    have hnd' : (Table.columns tl).Nodup := (List.nodup_cons.mp hnd).2
    have hnm : nm ∉ Table.columns tl := (List.nodup_cons.mp hnd).1
    rw [detect_numeric_columns] at hincl
    rcases List.mem_cons.mp hmem with heq | htl
    · obtain ⟨rfl, rfl⟩ := Prod.mk.injEq _ _ _ _ |>.mp heq
      have hall : col.all cellNumericOk = false := by
        rw [List.all_eq_false]
        exact ⟨c, hc, by simp [hbad]⟩
      have hdty : isNumericDtype col = false := by
        by_contra h
        have := all_ok_of_numericDtype (by simpa using h) c hc
        rw [hbad] at this
        exact absurd this (by simp)
      by_cases hex : name ∈ exclude
      · rw [if_pos hex] at hincl
        obtain ⟨_, col', hc', _⟩ := detect_numeric_mem_sound tl exclude name hincl
        exact hnm (List.mem_map_of_mem _ hc')
      · rw [if_neg hex, if_neg (by simp [hdty]), if_neg (by simp [hall])] at hincl
        obtain ⟨_, col', hc', _⟩ := detect_numeric_mem_sound tl exclude name hincl
        exact hnm (List.mem_map_of_mem _ hc')
    · by_cases hex : nm ∈ exclude
      · rw [if_pos hex] at hincl
        exact ih hnd' name col c htl hc hbad hincl
      · rw [if_neg hex] at hincl
        by_cases h1 : isNumericDtype colh = true
        · rw [if_pos h1] at hincl
          rcases List.mem_cons.mp hincl with heq2 | hrec
          · exact hnm (heq2 ▸ List.mem_map_of_mem Prod.fst htl)
          · exact ih hnd' name col c htl hc hbad hrec
        · rw [if_neg h1] at hincl
          by_cases h2 : colh.all cellNumericOk = true
          · rw [if_pos h2] at hincl
            rcases List.mem_cons.mp hincl with heq2 | hrec
            · exact hnm (heq2 ▸ List.mem_map_of_mem Prod.fst htl)
            · exact ih hnd' name col c htl hc hbad hrec
          · rw [if_neg h2] at hincl
            exact ih hnd' name col c htl hc hbad hincl


/-- `cellAt` commutes with mapping a missing-preserving cell function. -/
lemma cellAt_map {f : Cell → Cell} (hf : f Cell.missing = Cell.missing)
    (col : List Cell) (i : Nat) : cellAt (col.map f) i = f (cellAt col i) := by
  unfold cellAt
  conv_lhs => rw [← hf]
  exact List.getD_map col Cell.missing f

/-- `Table.getCol` on a cons cell of the column list. -/
lemma getCol_cons (nm : String) (col : List Cell) (tl : Table) (c : String) :
    Table.getCol ((nm, col) :: tl) c = if nm = c then col else Table.getCol tl c := by
  unfold Table.getCol
  by_cases h : nm = c
  · rw [List.find?_cons_of_pos _ (by simp [h])]
    simp [h]
  · rw [List.find?_cons_of_neg _ (by simp [h])]
    simp [h]

/-- `Table.getCol` through a cellwise transformation of every column. -/
lemma getCol_mapCells (f : String → List Cell → List Cell) (df : Table) (c : String)
    (hc : c ∈ Table.columns df) :
    Table.getCol (df.map (fun p => (p.1, f p.1 p.2))) c = f c (Table.getCol df c) := by
  induction df with
  | nil => simp [Table.columns] at hc
  | cons hd tl ih =>
    obtain ⟨nm, col⟩ := hd
    rw [List.map_cons, getCol_cons, getCol_cons]
    by_cases h : nm = c
    · subst h
      rw [if_pos rfl, if_pos rfl]
    · have hc2 : c ∈ Table.columns tl := by
        rcases (by simpa [Table.columns] using hc : c = nm ∨ ∃ x, (c, x) ∈ tl) with h1 | ⟨x, hx⟩
        · exact absurd h1.symm h
        · exact List.mem_map_of_mem Prod.fst hx
      rw [if_neg h, if_neg h]
      exact ih hc2

/-- A zip of two equal-length columns as a map over row indices. -/
lemma zip_eq_map_range (l1 l2 : List Cell) (n : Nat) (h1 : l1.length = n) (h2 : l2.length = n) :
    l1.zip l2 = (List.range n).map (fun i => (cellAt l1 i, cellAt l2 i)) := by
  induction n generalizing l1 l2 with
  | zero =>
    rw [List.eq_nil_of_length_eq_zero h1, List.eq_nil_of_length_eq_zero h2]
    rfl
  | succ m ih =>
    cases l1 with
    | nil => simp at h1
    | cons a t1 =>
      cases l2 with
      | nil => simp at h2
      | cons b t2 =>
        rw [List.range_succ_eq_map, List.map_cons, List.map_map, List.zip_cons_cons]
        congr 1
        rw [ih t1 t2 (by simpa using h1) (by simpa using h2)]
        apply List.map_congr_left
        intro i _
        rfl

/-- A `filterMap` whose function is an if-then-some is a filter then map. -/
lemma filterMap_ite_eq_filter_map {α β : Type} (p : α → Bool) (f : α → β) (l : List α) :
    l.filterMap (fun a => if p a then some (f a) else none) = (l.filter p).map f := by
  induction l with
  | nil => rfl
  | cons a t ih =>
    by_cases h : p a = true
    · simp [List.filterMap_cons, List.filter_cons, h, ih]
    · simp [List.filterMap_cons, List.filter_cons, h, ih]

/-- Under unique column names, filtering the column list by a present name
yields exactly that column's entry. -/
lemma filter_name_single (df : Table) (c : String)
    (hnd : (Table.columns df).Nodup) (hc : c ∈ Table.columns df) :
    df.filter (fun p => p.1 == c) = [(c, Table.getCol df c)] := by
  induction df with
  | nil => simp [Table.columns] at hc
  | cons hd tl ih =>
    obtain ⟨nm, col⟩ := hd
    have hnd2 : (Table.columns tl).Nodup := (List.nodup_cons.mp hnd).2
    have hnm : nm ∉ Table.columns tl := (List.nodup_cons.mp hnd).1
    by_cases h : nm = c
    · subst h
      rw [List.filter_cons_of_pos (by simp)]
      have htl : tl.filter (fun p => p.1 == nm) = [] := by
        rw [List.filter_eq_nil_iff]
        intro p hp hpeq
        rw [beq_iff_eq] at hpeq
        exact hnm (hpeq ▸ List.mem_map_of_mem Prod.fst hp)
      rw [htl, getCol_cons, if_pos rfl]
    · rw [List.filter_cons_of_neg (by simp [h])]
      have hc2 : c ∈ Table.columns tl := by
        rcases (by simpa [Table.columns] using hc : c = nm ∨ ∃ x, (c, x) ∈ tl) with h1 | ⟨x, hx⟩
        · exact absurd h1.symm h
        · exact List.mem_map_of_mem Prod.fst hx
      rw [ih hnd2 hc2, getCol_cons, if_neg h]

/-- The surviving sorted rows of the pipeline, read off the two selected
columns: `prepareRows` equals the sorted kept indices mapped to their
coerced (timestamp, value) pairs. -/
lemma prepareRows_eq_sortIdx (df : Table) (d v : String) (n : Nat)
    (hd : d ∈ Table.columns df) (hv : v ∈ Table.columns df) (hdv : d ≠ v)
    (hn : ∀ p ∈ df, p.2.length = n) :
    prepareRows df d v =
      (sortIdx (coerceCols df d v) d
        (dropKeep (coerceCols df d v) d v (Table.nRows df))).map
        (fun i => ((cellToDatetime (cellAt (Table.getCol df d) i)).getD 0,
                   (cellToNumeric (cellAt (Table.getCol df v) i)).getD 0)) := by
  have hgd : Table.getCol (coerceCols df d v) d = (Table.getCol df d).map coerceDateCell := by
    unfold coerceCols
    rw [getCol_mapCells _ df d hd]
    simp [coerceColCells, hdv]
  have hgv : Table.getCol (coerceCols df d v) v = (Table.getCol df v).map coerceNumCell := by
    unfold coerceCols
    rw [getCol_mapCells _ df v hv]
    simp [coerceColCells, Ne.symm hdv]
  have hlD : (Table.getCol df d).length = n := getCol_length df d n hn hd
  have hlV : (Table.getCol df v).length = n := getCol_length df v n hn hv
  have hnr : Table.nRows df = n := by
    cases df with
    | nil => simp [Table.columns] at hd
    | cons p tl => exact hn p (List.mem_cons_self _ _)
  have hkey : ∀ i, cellKey (cellAt ((Table.getCol df d).map coerceDateCell) i)
      = (cellToDatetime (cellAt (Table.getCol df d) i)).getD 0 := by
    intro i
    rw [cellAt_map rfl]
    cases h : cellToDatetime (cellAt (Table.getCol df d) i) <;>
      simp [coerceDateCell, h, cellKey]
  have hkeep : dropKeep (coerceCols df d v) d v (Table.nRows df)
      = (List.range n).filter (fun i =>
          (cellToDatetime (cellAt (Table.getCol df d) i)).isSome &&
            (cellToNumeric (cellAt (Table.getCol df v) i)).isSome) := by
    unfold dropKeep
    rw [hnr, hgd, hgv]
    apply List.filter_congr
    intro i _
    rw [cellAt_map rfl, cellAt_map rfl]
    cases h1 : cellToDatetime (cellAt (Table.getCol df d) i) <;>
      cases h2 : cellToNumeric (cellAt (Table.getCol df v) i) <;>
        simp [coerceDateCell, coerceNumCell, h1, h2, Cell.isMissingCell]
  rw [prepareRows_eq, zip_eq_map_range (Table.getCol df d) (Table.getCol df v) n hlD hlV,
    List.filterMap_map]
  have hfun : ((fun p => keepRule (cellToDatetime p.1, cellToNumeric p.2)) ∘
        (fun i => (cellAt (Table.getCol df d) i, cellAt (Table.getCol df v) i)))
      = fun i =>
          if ((cellToDatetime (cellAt (Table.getCol df d) i)).isSome &&
              (cellToNumeric (cellAt (Table.getCol df v) i)).isSome : Bool) then
            some ((cellToDatetime (cellAt (Table.getCol df d) i)).getD 0,
                  (cellToNumeric (cellAt (Table.getCol df v) i)).getD 0)
          else none := by
    funext i
    simp only [Function.comp]
    cases h1 : cellToDatetime (cellAt (Table.getCol df d) i) <;>
      cases h2 : cellToNumeric (cellAt (Table.getCol df v) i) <;>
        simp [keepRule, h1, h2]
  rw [hfun, filterMap_ite_eq_filter_map]
  unfold sortIdx
  simp only [hgd, hkeep]
  refine (List.map_insertionSort _ tsLE _ _ ?_).symm
  intro a _ b _
  simp [tsLE, hkey a, hkey b]

/-- Selection of `["ds", "y"]` when each label matches exactly one column. -/
lemma selectCols_two (df : Table) (e1 e2 : String × List Cell)
    (h1 : df.filter (fun p => p.1 == "ds") = [e1])
    (h2 : df.filter (fun p => p.1 == "y") = [e2]) :
    selectCols df ["ds", "y"] = Except.ok [e1, e2] := by
  simp only [selectCols, h1, h2]
  rfl

/-- Selection raises `KeyError` when the first requested label matches no
column. -/
lemma selectCols_head_missing (df : Table) (l : String) (rest : List String)
    (h : df.filter (fun p => p.1 == l) = []) :
    selectCols df (l :: rest) = Except.error ("KeyError: " ++ l ++ " not in index") := by
  simp only [selectCols, h]
  rfl

/-- The final selection step of the pipeline in the regular case: with the
two selected columns distinct, unique column names, and no unselected
column already labelled `ds` or `y`, selecting `["ds", "y"]` returns
exactly the two coerced, row-restricted columns. -/
lemma select_ds_y (df : Table) (d v : String) (idxs : List Nat)
    (hd : d ∈ Table.columns df) (hv : v ∈ Table.columns df) (hdv : d ≠ v)
    (hnd : (Table.columns df).Nodup)
    (hstray : ∀ p ∈ df, p.1 ≠ d → p.1 ≠ v → p.1 ≠ "ds" ∧ p.1 ≠ "y") :
    selectCols
      (((coerceCols df d v).map (fun p => (p.1, takeRows idxs p.2))).map
        (fun p => (renameLabel d v p.1, p.2))) ["ds", "y"]
      = Except.ok
          [("ds", takeRows idxs ((Table.getCol df d).map coerceDateCell)),
           ("y", takeRows idxs ((Table.getCol df v).map coerceNumCell))] := by
  have hfuse : ((coerceCols df d v).map (fun p => (p.1, takeRows idxs p.2))).map
        (fun p => (renameLabel d v p.1, p.2))
      = df.map (fun p => (renameLabel d v p.1,
          takeRows idxs (coerceColCells d v p.1 p.2))) := by
    unfold coerceCols
    rw [List.map_map, List.map_map]
    rfl
  rw [hfuse]
  apply selectCols_two
  · rw [List.filter_map,
      List.filter_congr (show ∀ q ∈ df,
        (((fun p : String × List Cell => (p.1 == "ds")) ∘
          (fun p => (renameLabel d v p.1, takeRows idxs (coerceColCells d v p.1 p.2)))) q)
          = (q.1 == d) from ?_),
      filter_name_single df d hnd hd]
    · simp [renameLabel, hdv, coerceColCells]
    · intro q hq
      simp only [Function.comp]
      by_cases h1 : q.1 = d
      · simp [renameLabel, h1, hdv]
      · by_cases h2 : q.1 = v
        · simp [renameLabel, h1, h2, hdv]
        · have hs := hstray q hq h1 h2
          simp [renameLabel, h1, h2, hdv, hs.1]
  · rw [List.filter_map,
      List.filter_congr (show ∀ q ∈ df,
        (((fun p : String × List Cell => (p.1 == "y")) ∘
          (fun p => (renameLabel d v p.1, takeRows idxs (coerceColCells d v p.1 p.2)))) q)
          = (q.1 == v) from ?_),
      filter_name_single df v hnd hv]
    · simp [renameLabel, hdv, Ne.symm hdv, coerceColCells]
    · intro q hq
      simp only [Function.comp]
      by_cases h2 : q.1 = v
      · simp [renameLabel, h2, hdv, Ne.symm hdv]
      · by_cases h1 : q.1 = d
        · simp [renameLabel, h1, h2, hdv]
        · have hs := hstray q hq h1 h2
          simp [renameLabel, h1, h2, hdv, hs.2]

/-- The success branch of `prepare_data`: with both selected columns
present and distinct, unique column names, no unselected column already
labelled `ds` or `y`, and equal column lengths, the pipeline returns the
clean two-column frame of `prepareRows`. -/
lemma prepare_data_ok (df : Table) (d v : String) (n : Nat)
    (hd : d ∈ Table.columns df) (hv : v ∈ Table.columns df) (hdv : d ≠ v)
    (hnd : (Table.columns df).Nodup)
    (hstray : ∀ p ∈ df, p.1 ≠ d → p.1 ≠ v → p.1 ≠ "ds" ∧ p.1 ≠ "y")
    (hn : ∀ p ∈ df, p.2.length = n) :
    prepare_data df d v = Except.ok (mkCleanFrame (prepareRows df d v)) := by
  have hcond : ¬(d ∉ Table.columns df ∨ v ∉ Table.columns df) := by
    push_neg
    exact ⟨hd, hv⟩
  unfold prepare_data
  rw [if_neg hcond]
  simp only []
  rw [select_ds_y df d v _ hd hv hdv hnd hstray,
    prepareRows_eq_sortIdx df d v n hd hv hdv hn]
  have hmem : ∀ i ∈ sortIdx (coerceCols df d v) d
      (dropKeep (coerceCols df d v) d v (Table.nRows df)),
      (cellToDatetime (cellAt (Table.getCol df d) i)).isSome = true ∧
        (cellToNumeric (cellAt (Table.getCol df v) i)).isSome = true := by
    intro i hi
    have hgd : Table.getCol (coerceCols df d v) d
        = (Table.getCol df d).map coerceDateCell := by
      unfold coerceCols
      rw [getCol_mapCells _ df d hd]
      simp [coerceColCells, hdv]
    have hgv : Table.getCol (coerceCols df d v) v
        = (Table.getCol df v).map coerceNumCell := by
      unfold coerceCols
      rw [getCol_mapCells _ df v hv]
      simp [coerceColCells, Ne.symm hdv]
    have hk : i ∈ dropKeep (coerceCols df d v) d v (Table.nRows df) := by
      unfold sortIdx at hi
      exact (List.perm_insertionSort _ _).subset hi
    unfold dropKeep at hk
    have := (List.mem_filter.mp hk).2
    rw [hgd, hgv, cellAt_map rfl, cellAt_map rfl] at this
    cases h1 : cellToDatetime (cellAt (Table.getCol df d) i) <;>
      cases h2 : cellToNumeric (cellAt (Table.getCol df v) i) <;>
        simp [coerceDateCell, coerceNumCell, h1, h2, Cell.isMissingCell] at this ⊢
  unfold mkCleanFrame takeRows
  rw [List.map_map, List.map_map]
  have e1 : (sortIdx (coerceCols df d v) d
        (dropKeep (coerceCols df d v) d v (Table.nRows df))).map
        (fun i => cellAt ((Table.getCol df d).map coerceDateCell) i)
      = (sortIdx (coerceCols df d v) d
        (dropKeep (coerceCols df d v) d v (Table.nRows df))).map
        ((fun r : Int × Int => Cell.date r.1) ∘
          (fun i => ((cellToDatetime (cellAt (Table.getCol df d) i)).getD 0,
                     (cellToNumeric (cellAt (Table.getCol df v) i)).getD 0))) := by
    apply List.map_congr_left
    intro i hi
    obtain ⟨h1, _⟩ := hmem i hi
    obtain ⟨t, ht⟩ := Option.isSome_iff_exists.mp h1
    simp only [Function.comp]
    rw [cellAt_map rfl]
    simp [coerceDateCell, ht]
  have e2 : (sortIdx (coerceCols df d v) d
        (dropKeep (coerceCols df d v) d v (Table.nRows df))).map
        (fun i => cellAt ((Table.getCol df v).map coerceNumCell) i)
      = (sortIdx (coerceCols df d v) d
        (dropKeep (coerceCols df d v) d v (Table.nRows df))).map
        ((fun r : Int × Int => Cell.num r.2) ∘
          (fun i => ((cellToDatetime (cellAt (Table.getCol df d) i)).getD 0,
                     (cellToNumeric (cellAt (Table.getCol df v) i)).getD 0))) := by
    apply List.map_congr_left
    intro i hi
    obtain ⟨_, h2⟩ := hmem i hi
    obtain ⟨x, hx⟩ := Option.isSome_iff_exists.mp h2
    simp only [Function.comp]
    rw [cellAt_map rfl]
    simp [coerceNumCell, hx]
  rw [e1, e2]

/-- The failure branch of `prepare_data` when a column is absent. -/
lemma prepare_data_err (df : Table) (d v : String)
    (h : d ∉ Table.columns df ∨ v ∉ Table.columns df) :
    prepare_data df d v = Except.error (availableColumnsMessage df) := by
  unfold prepare_data
  rw [if_pos h]

/-- The collapsed-rename failure of `prepare_data` at `date_col =
value_col`: the final selection finds no `ds` label and raises `KeyError`
(unless some other column is already labelled `ds`). -/
lemma prepare_data_keyerror (df : Table) (c : String)
    (hc : c ∈ Table.columns df)
    (hds : ∀ p ∈ df, p.1 = "ds" → p.1 = c) :
    prepare_data df c c = Except.error ("KeyError: ds not in index") := by
  have hcond : ¬(c ∉ Table.columns df ∨ c ∉ Table.columns df) := by
    push_neg
    exact ⟨hc, hc⟩
  unfold prepare_data
  rw [if_neg hcond]
  simp only []
  have hfuse : ((coerceCols df c c).map (fun p =>
        (p.1, takeRows (sortIdx (coerceCols df c c) c
          (dropKeep (coerceCols df c c) c c (Table.nRows df))) p.2))).map
        (fun p => (renameLabel c c p.1, p.2))
      = df.map (fun p => (renameLabel c c p.1,
          takeRows (sortIdx (coerceCols df c c) c
            (dropKeep (coerceCols df c c) c c (Table.nRows df)))
            (coerceColCells c c p.1 p.2))) := by
    unfold coerceCols
    rw [List.map_map, List.map_map]
    rfl
  rw [hfuse]
  rw [selectCols_head_missing]
  · rfl
  · rw [List.filter_eq_nil_iff]
    intro p hp
    obtain ⟨q, hq, rfl⟩ := List.mem_map.mp hp
    by_cases h1 : q.1 = c
    · simp [renameLabel, h1]
    · have hne : q.1 ≠ "ds" := fun hh => h1 (hds q hq hh)
      simp [renameLabel, h1, hne]

/-- C1 (amended): `prepare_data` fails with an error listing the table's
available column names (not the missing ones) exactly when a requested
column is absent; when both columns exist, are distinct, names are unique
and no unselected column is already labelled `ds` or `y`, it succeeds;
when `date_col = value_col` (and no stray `ds` label exists) the collapsed
rename dict makes the final projection raise `KeyError` instead. -/
theorem prepare_data_schema_error (df : Table) (d v : String) (n : Nat) :
    ((d ∉ Table.columns df ∨ v ∉ Table.columns df) →
      prepare_data df d v = Except.error (availableColumnsMessage df)) ∧
    (d ∈ Table.columns df → v ∈ Table.columns df → d ≠ v →
      (Table.columns df).Nodup →
      (∀ p ∈ df, p.1 ≠ d → p.1 ≠ v → p.1 ≠ "ds" ∧ p.1 ≠ "y") →
      (∀ p ∈ df, p.2.length = n) →
      prepare_data df d v = Except.ok (mkCleanFrame (prepareRows df d v))) ∧
    (d = v → d ∈ Table.columns df → (∀ p ∈ df, p.1 = "ds" → p.1 = d) →
      prepare_data df d v = Except.error ("KeyError: ds not in index")) := by
  refine ⟨prepare_data_err df d v, prepare_data_ok df d v n, ?_⟩
  intro hdv hc hds
  subst hdv
  exact prepare_data_keyerror df d hc hds

/-- C1 counterexample: requesting the absent column `DoesNotExist` makes
`prepare_data` fail, but the error message does not name `DoesNotExist`:
it lists the available columns instead. -/
theorem prepare_data_missing_name_cex :
    prepare_data exTable "Date" "DoesNotExist"
      = Except.error (availableColumnsMessage exTable) ∧
    mentionsName (availableColumnsMessage exTable) "DoesNotExist" = false :=
  ⟨rfl, by decide⟩

/-- Witness for C1 at concrete tables: the missing-column error, the
regular success path, and the collapsed-rename `KeyError` path. -/
theorem prepare_data_schema_error_witness :
    ("DoesNotExist" ∉ Table.columns exTable) ∧
    prepare_data exTable "Date" "DoesNotExist"
      = Except.error (availableColumnsMessage exTable) ∧
    prepare_data exTable "Date" "Sales"
      = Except.ok (mkCleanFrame (prepareRows exTable "Date" "Sales")) ∧
    prepare_data exTable "Sales" "Sales" = Except.error ("KeyError: ds not in index") :=
  ⟨by decide,
   (prepare_data_schema_error exTable "Date" "DoesNotExist" 2).1 (Or.inr (by decide)),
   (prepare_data_schema_error exTable "Date" "Sales" 2).2.1 (by decide) (by decide)
     (by decide) (by decide) (by decide) (by decide),
   (prepare_data_schema_error exTable "Sales" "Sales" 2).2.2 rfl (by decide) (by decide)⟩

/-- C2 (amended): on a table with unique column names containing both
chosen columns (distinct, with no unselected column already labelled `ds`
or `y`, all columns of length `n`), `prepare_data` succeeds and the
resulting series is non-decreasing by timestamp, no longer than the input,
and free of missing values in both fields. -/
theorem prepare_data_postcondition (df : Table) (d v : String) (n : Nat)
    (hd : d ∈ Table.columns df) (hv : v ∈ Table.columns df) (hdv : d ≠ v)
    (hnd : (Table.columns df).Nodup)
    (hstray : ∀ p ∈ df, p.1 ≠ d → p.1 ≠ v → p.1 ≠ "ds" ∧ p.1 ≠ "y")
    (hn : ∀ p ∈ df, p.2.length = n) :
    prepare_data df d v = Except.ok (mkCleanFrame (prepareRows df d v)) ∧
    List.Sorted (· ≤ ·) ((prepareRows df d v).map Prod.fst) ∧
    (prepareRows df d v).length ≤ n ∧
    (∀ c ∈ Table.getCol (mkCleanFrame (prepareRows df d v)) "ds", ∃ t, c = Cell.date t) ∧
    (∀ c ∈ Table.getCol (mkCleanFrame (prepareRows df d v)) "y", ∃ x, c = Cell.num x) := by
  refine ⟨prepare_data_ok df d v n hd hv hdv hnd hstray hn, ?_, ?_, ?_, ?_⟩
  · exact List.pairwise_map.mpr (prepareRows_sorted df d v)
  · calc (prepareRows df d v).length
        = _ := prepareRows_length df d v
      _ ≤ ((Table.getCol df d).zip (Table.getCol df v)).length := List.countP_le_length _
      _ ≤ (Table.getCol df d).length := by
            rw [List.length_zip]; exact inf_le_left
      _ = n := getCol_length df d n hn hd
  · intro c hc
    rw [getCol_mkCleanFrame_ds] at hc
    obtain ⟨r, _, rfl⟩ := List.mem_map.mp hc
    exact ⟨r.1, rfl⟩
  · intro c hc
    rw [getCol_mkCleanFrame_y] at hc
    obtain ⟨r, _, rfl⟩ := List.mem_map.mp hc
    exact ⟨r.2, rfl⟩

/-- C2 counterexample: on a table with a stray pre-existing `y` column the
program's label-based projection keeps the stray column, whose uncoerced
missing cell survives into the output — the claimed "no missing value"
postcondition is false of the program. -/
theorem prepare_data_postcondition_cex :
    prepare_data strayTbl "Date" "Sales"
      = Except.ok [("ds", [Cell.date 20200101]), ("y", [Cell.num 7]), ("y", [Cell.missing])] ∧
    Cell.missing ∈ List.flatten (List.map Prod.snd
      [("ds", [Cell.date 20200101]), ("y", [Cell.num 7]), ("y", [Cell.missing])]) :=
  ⟨rfl, by decide⟩

/-- Witness for C2 at a concrete table of length 2. -/
theorem prepare_data_postcondition_witness :
    ("Date" ∈ Table.columns exTable) ∧ (prepareRows exTable "Date" "Sales").length ≤ 2 :=
  ⟨by decide, (prepare_data_postcondition exTable "Date" "Sales" 2 (by decide) (by decide)
      (by decide) (by decide) (by decide) (by decide)).2.2.1⟩

/-- C3: `detect_numeric_columns` includes a non-excluded column only when
every cell converts (numbers, NaN cells and numeric text); under the
unique-column-name invariant, one non-convertible cell excludes the whole
column — no partial tolerance. -/
theorem detect_numeric_columns_100_percent (df : Table) (exclude : List String) :
    (∀ name ∈ detect_numeric_columns df exclude,
      name ∉ exclude ∧ ∃ col, (name, col) ∈ df ∧ ∀ c ∈ col, cellNumericOk c = true) ∧
    ((Table.columns df).Nodup →
      ∀ name col c, (name, col) ∈ df → c ∈ col → cellNumericOk c = false →
        name ∉ detect_numeric_columns df exclude) :=
  ⟨detect_numeric_mem_sound df exclude, detect_numeric_bad_excluded df exclude⟩

/-- Witness for C3: a column of 99 good cells and one bad cell is excluded. -/
theorem detect_numeric_columns_100_percent_witness :
    (Table.columns [("Bad", badCol99)]).Nodup ∧
    "Bad" ∉ detect_numeric_columns [("Bad", badCol99)] [] :=
  ⟨by decide, (detect_numeric_columns_100_percent [("Bad", badCol99)] []).2 (by decide)
    "Bad" badCol99 (Cell.text "oops") (by decide) (by decide) (by decide)⟩

/-- C4: on a column in which exactly 80% of the cells parse as dates,
`detect_date_column` returns the column at threshold `0.8` (the comparison
is `≥`) and rejects it at threshold `0.81`. -/
theorem detect_date_threshold_boundary :
    detect_date_column boundaryTbl 0.8 = some "A" ∧
    detect_date_column boundaryTbl 0.81 = none := by
  have h1 : isObjectDtype boundaryCol = true := by decide
  have h2 : validFrac boundaryCol = 4 / 5 := by
    unfold validFrac
    norm_num [show (boundaryCol.countP (fun c => (cellToDatetime c).isSome)) = 4 from by decide,
      show boundaryCol.length = 5 from by decide]
  constructor
  · simp [detect_date_column, boundaryTbl, h1, h2, show boundaryCol ≠ [] from by decide]
    norm_num
  · simp [detect_date_column, boundaryTbl, h1, h2, show boundaryCol ≠ [] from by decide]
    norm_num

/-- C6 counterexample: the two output columns of `prepare_data` are named
`ds` and `y` (the external forecaster's convention), not `timestamp` and
`value`. -/
theorem prepare_data_canonical_names_cex :
    (prepare_data exTable "Date" "Sales").map Table.columns = Except.ok ["ds", "y"] ∧
    (["ds", "y"] : List String) ≠ ["timestamp", "value"] :=
  ⟨rfl, by decide⟩

/-- C6 (amended): on a table with unique column names where the two chosen
columns are distinct and no unselected column is already labelled `ds` or
`y`, `prepare_data` outputs exactly two columns — the coerced date column
and the coerced value column — renamed to the fixed canonical names `ds`
and `y`, discarding every other original column (a stray pre-existing
`ds`/`y` column would instead be retained by the source's label-based
projection). -/
theorem prepare_data_projection (df : Table) (d v : String) (n : Nat)
    (hd : d ∈ Table.columns df) (hv : v ∈ Table.columns df) (hdv : d ≠ v)
    (hnd : (Table.columns df).Nodup)
    (hstray : ∀ p ∈ df, p.1 ≠ d → p.1 ≠ v → p.1 ≠ "ds" ∧ p.1 ≠ "y")
    (hn : ∀ p ∈ df, p.2.length = n) :
    prepare_data df d v = Except.ok (mkCleanFrame (prepareRows df d v)) ∧
    Table.columns (mkCleanFrame (prepareRows df d v)) = ["ds", "y"] ∧
    Table.getCol (mkCleanFrame (prepareRows df d v)) "ds"
      = (prepareRows df d v).map (fun r => Cell.date r.1) ∧
    Table.getCol (mkCleanFrame (prepareRows df d v)) "y"
      = (prepareRows df d v).map (fun r => Cell.num r.2) :=
  ⟨prepare_data_ok df d v n hd hv hdv hnd hstray hn, rfl, rfl, rfl⟩

/-- Witness for C6 at a concrete table. -/
theorem prepare_data_projection_witness :
    ("Date" ∈ Table.columns exTable) ∧
    Table.columns (mkCleanFrame (prepareRows exTable "Date" "Sales")) = ["ds", "y"] :=
  ⟨by decide, (prepare_data_projection exTable "Date" "Sales" 2 (by decide) (by decide)
    (by decide) (by decide) (by decide) (by decide)).2.1⟩

/-- C7 (amended): when both chosen columns exist, are distinct (unique
names, no stray `ds`/`y` label) but every row fails a coercion,
`prepare_data` returns the empty clean frame rather than an error; with
`date_col = value_col` the program raises `KeyError` instead. -/
theorem prepare_data_empty_result (df : Table) (d v : String) (n : Nat)
    (hd : d ∈ Table.columns df) (hv : v ∈ Table.columns df) (hdv : d ≠ v)
    (hnd : (Table.columns df).Nodup)
    (hstray : ∀ p ∈ df, p.1 ≠ d → p.1 ≠ v → p.1 ≠ "ds" ∧ p.1 ≠ "y")
    (hn : ∀ p ∈ df, p.2.length = n)
    (hbad : ∀ p ∈ (Table.getCol df d).zip (Table.getCol df v),
        cellToDatetime p.1 = none ∨ cellToNumeric p.2 = none) :
    prepare_data df d v = Except.ok [("ds", []), ("y", [])] := by
  have hrows : prepareRows df d v = [] := by
    rw [prepareRows_eq]
    have hnil : (((Table.getCol df d).zip (Table.getCol df v)).filterMap
        (fun p => keepRule (cellToDatetime p.1, cellToNumeric p.2))) = [] := by
      rw [List.filterMap_eq_nil_iff]
      intro p hp
      rcases hbad p hp with h | h
      · rw [show keepRule (cellToDatetime p.1, cellToNumeric p.2)
              = keepRule (none, cellToNumeric p.2) from by rw [h]]
        cases cellToNumeric p.2 <;> rfl
      · rw [show keepRule (cellToDatetime p.1, cellToNumeric p.2)
              = keepRule (cellToDatetime p.1, none) from by rw [h]]
        cases cellToDatetime p.1 <;> rfl
    rw [hnil]
    rfl
  rw [prepare_data_ok df d v n hd hv hdv hnd hstray hn, hrows]
  rfl

/-- C7 counterexample: with `date_col = value_col` on a one-column table
whose single cell fails both coercions (so every row is dropped), the
program raises `KeyError` from the collapsed rename instead of returning an
empty series. -/
theorem prepare_data_empty_keyerror_cex :
    cellToDatetime (Cell.text "hello") = none ∧
    prepare_data oneColBadTbl "X" "X" = Except.error ("KeyError: ds not in index") :=
  ⟨rfl, rfl⟩

/-- Witness for C7: a two-column table whose single row fails both
coercions. -/
theorem prepare_data_empty_result_witness :
    ("Date" ∈ Table.columns allBadTbl) ∧
    prepare_data allBadTbl "Date" "Sales" = Except.ok [("ds", []), ("y", [])] :=
  ⟨by decide, prepare_data_empty_result allBadTbl "Date" "Sales" 1 (by decide) (by decide)
    (by decide) (by decide) (by decide) (by decide) (by decide)⟩

/-- C8: `detect_date_column` (a total function, so it cannot raise) returns
`none` or a column name present in the table; a returned name is the first
column in table order that is not skipped for its dtype and whose date-parse
fraction meets the threshold. -/
theorem detect_date_column_sound (df : Table) (t : ℚ) (name : String)
    (h : detect_date_column df t = some name) :
    name ∈ Table.columns df ∧
      ∃ pre col post,
        df = pre ++ (name, col) :: post ∧ dateHit t col = true ∧
          ∀ p ∈ pre, dateHit t p.2 = false := by
  rw [detect_date_column_eq_find] at h
  cases hf : df.find? (fun p => dateHit t p.2) with
  | none => rw [hf] at h; cases h
  | some q =>
    rw [hf] at h
    obtain ⟨qn, qc⟩ := q
    have hname : qn = name := by simpa using h
    subst hname
    obtain ⟨hq, pre, post, hdf, hpre⟩ := List.find?_eq_some.mp hf
    constructor
    · rw [hdf]
      simp [Table.columns]
    · refine ⟨pre, qc, post, hdf, by simpa using hq, fun p hp => ?_⟩
      simpa using hpre p hp

/-- Witness for C8: a fully-parseable datetime column is detected and its
name is a column of the table. -/
theorem detect_date_column_sound_witness :
    detect_date_column wTbl 1 = some "W" ∧ "W" ∈ Table.columns wTbl := by
  have hv : validFrac [Cell.date 0] = 1 := by
    unfold validFrac
    norm_num [show ([Cell.date 0].countP (fun c => (cellToDatetime c).isSome)) = 1 from by decide]
  have h : detect_date_column wTbl 1 = some "W" := by
    simp [detect_date_column, wTbl, hv,
      show isDatetimeDtype [Cell.date 0] = true from by decide,
      show ([Cell.date 0] : List Cell) ≠ [] from by decide]
  exact ⟨h, (detect_date_column_sound wTbl 1 "W" h).1⟩

/-- C9: `prepare_data` is a pure function of its arguments — two calls on
the same table and column names give identical results (the source copies
the input frame before mutating, so the caller's table is untouched and no
hidden state exists). -/
theorem prepare_data_deterministic (df1 df2 : Table) (d v : String) (h : df1 = df2) :
    prepare_data df1 d v = prepare_data df2 d v := by
  rw [h]

/-- Witness for C9 at a concrete table. -/
theorem prepare_data_deterministic_witness :
    prepare_data exTable "Date" "Sales" = prepare_data exTable "Date" "Sales" :=
  prepare_data_deterministic exTable exTable "Date" "Sales" rfl

/-- C10 (amended): with the chosen columns present and distinct (unique
names, no stray `ds`/`y` label, equal column lengths), the clean series
length is exactly the number of input rows whose date cell parses as a
timestamp and whose value cell converts to a number. -/
theorem prepare_data_row_count (df : Table) (d v : String) (n : Nat)
    (hd : d ∈ Table.columns df) (hv : v ∈ Table.columns df) (hdv : d ≠ v)
    (hnd : (Table.columns df).Nodup)
    (hstray : ∀ p ∈ df, p.1 ≠ d → p.1 ≠ v → p.1 ≠ "ds" ∧ p.1 ≠ "y")
    (hn : ∀ p ∈ df, p.2.length = n) :
    prepare_data df d v = Except.ok (mkCleanFrame (prepareRows df d v)) ∧
    (prepareRows df d v).length =
      ((Table.getCol df d).zip (Table.getCol df v)).countP
        (fun p => (cellToDatetime p.1).isSome && (cellToNumeric p.2).isSome) :=
  ⟨prepare_data_ok df d v n hd hv hdv hnd hstray hn, prepareRows_length df d v⟩

/-- C10 counterexample: with `date_col = value_col = "Sales"` on a table
containing that column, the program raises `KeyError` from the collapsed
rename dict, so no series (of any length) is returned. -/
theorem prepare_data_row_count_cex :
    ("Sales" ∈ Table.columns exTable) ∧
    prepare_data exTable "Sales" "Sales" = Except.error ("KeyError: ds not in index") :=
  ⟨by decide, rfl⟩

/-- Witness for C10 at a concrete table. -/
theorem prepare_data_row_count_witness :
    ("Date" ∈ Table.columns exTable) ∧
    (prepareRows exTable "Date" "Sales").length =
      ((Table.getCol exTable "Date").zip (Table.getCol exTable "Sales")).countP
        (fun p => (cellToDatetime p.1).isSome && (cellToNumeric p.2).isSome) :=
  ⟨by decide, (prepare_data_row_count exTable "Date" "Sales" 2 (by decide) (by decide)
    (by decide) (by decide) (by decide) (by decide)).2⟩
